import Mathlib

/-!
A verification development for the util package of ipfs-update
(src/util/utils.go), as a shallow embedding in Lean.

Go strings and byte slices are modelled as List Char; Go ints are Int
(64-bit range checks made explicit where the library performs them);
functions that can panic at runtime (out-of-range indexing, nil
dereference) return an Option or a dedicated panic constructor, so that
every embedded function is total and a panic is a visible outcome.
External effects (HTTP requests, the filesystem, the local daemon) are
supplied as explicit environment records: each field records the result
the external world would hand back to the corresponding call site.
-/

namespace Util

/-- Go strings.Split with a one-character separator, on strings modelled as
character lists: splitting the empty string yields one empty field, and
every separator occurrence ends the current field and starts a new one
(so the result always has one more field than there are separators). -/
def goSplit (sep : Char) : List Char → List (List Char)
  | [] => [[]]
  | c :: rest =>
    match goSplit sep rest with
    | [] => [[c]]
    | p :: ps => if c = sep then [] :: p :: ps else (c :: p) :: ps

/-- Decimal digit value of a character, none for a non-digit. -/
def digitVal (c : Char) : Option Nat :=
  if '0' ≤ c ∧ c ≤ '9' then some (c.toNat - '0'.toNat) else none

/-- Accumulating base-10 digit scan; fails on the first non-digit. -/
def parseDigitsAux : List Char → Nat → Option Nat
  | [], acc => some acc
  | c :: rest, acc =>
    match digitVal c with
    | none => none
    | some d => parseDigitsAux rest (acc * 10 + d)

/-- Base-10 digit-string parser: at least one digit, digits only. -/
def parseDigits : List Char → Option Nat
  | [] => none
  | c :: rest => parseDigitsAux (c :: rest) 0

/-- Largest value of Go's 64-bit int. -/
def int64Max : Int := 9223372036854775807

/-- strconv.Atoi: an optional single leading sign, then one or more decimal
digits, value required to fit in a 64-bit int; every other input is a parse
error, modelled as none. -/
def atoi : List Char → Option Int
  | '-' :: rest =>
    (parseDigits rest).bind fun n =>
      if (n : Int) ≤ int64Max + 1 then some (-(n : Int)) else none
  | '+' :: rest =>
    (parseDigits rest).bind fun n =>
      if (n : Int) ≤ int64Max then some (n : Int) else none
  | s =>
    (parseDigits s).bind fun n =>
      if (n : Int) ≤ int64Max then some (n : Int) else none

/-- One iteration of the comparison loop in util.BeforeVersion.  ap and bp
are aparts[i] and bparts[i] as optional lookups: an out-of-range index is a
runtime panic (none for the whole call).  Mirroring the Go statement order,
aparts[i] is indexed and parsed first, so a parse failure there returns
false before bparts[i] is ever indexed; k is the rest of the loop. -/
def bvStep (ap bp : Option (List Char)) (k : Option Bool) : Option Bool :=
  match ap with
  | none => none
  | some a =>
    match atoi a with
    | none => some false
    | some an =>
      match bp with
      | none => none
      | some b =>
        match atoi b with
        | none => some false
        | some bn =>
          if bn < an then some true
          else if an < bn then some false
          else k

/-- util.BeforeVersion(check, cur): both arguments are sliced from index 1
(a runtime panic, hence none, when either string is empty), split on a dot,
and compared by the three-iteration loop, unrolled here for i = 0, 1, 2.
The loop returns true when bparts[i] parses below aparts[i], false when it
parses above, and falls through on equality; after three equal components
the function returns false. -/
def BeforeVersion (check cur : List Char) : Option Bool :=
  match check, cur with
  | _ :: ctail, _ :: curtail =>
    let aparts := goSplit '.' ctail
    let bparts := goSplit '.' curtail
    bvStep (aparts.get? 0) (bparts.get? 0)
      (bvStep (aparts.get? 1) (bparts.get? 1)
        (bvStep (aparts.get? 2) (bparts.get? 2) (some false)))
  | _, _ => none

/-- A well-formed version string in the sense of the specification: a
one-character prefix followed by exactly three dot-separated components,
each accepted by strconv.Atoi. -/
def wellFormedVersion (s : List Char) : Bool :=
  match s with
  | [] => false
  | _ :: t =>
    match goSplit '.' t with
    | [p1, p2, p3] => (atoi p1).isSome && ((atoi p2).isSome && (atoi p3).isSome)
    | _ => false

/-- Spec-side comparator, written from the specification's wording with the
argument roles as the code actually realises them: the result is decided at
the first differing component pair, and is true exactly when the second
argument's (current's) component is the smaller one there; versions equal
through all three components compare as not-older. -/
def specIsOlder (a1 a2 a3 b1 b2 b3 : Int) : Bool :=
  if b1 ≠ a1 then decide (b1 < a1)
  else if b2 ≠ a2 then decide (b2 < a2)
  else if b3 ≠ a3 then decide (b3 < a3)
  else false

theorem bvStep_parsed (a b : List Char) (an bn : Int) (k : Option Bool)
    (ha : atoi a = some an) (hb : atoi b = some bn) :
    bvStep (some a) (some b) k =
      if bn < an then some true else if an < bn then some false else k := by
  simp [bvStep, ha, hb]

theorem bvStep_same (a : List Char) (an : Int) (k : Option Bool)
    (ha : atoi a = some an) :
    bvStep (some a) (some a) k = k := by
  simp [bvStep, ha]

theorem get?_zero (a : List Char) (l : List (List Char)) : (a :: l).get? 0 = some a := rfl

theorem get?_one (a b : List Char) (l : List (List Char)) : (a :: b :: l).get? 1 = some b := rfl

theorem get?_two (a b e : List Char) (l : List (List Char)) :
    (a :: b :: e :: l).get? 2 = some e := rfl

/-- C1 (counterexample): the claim orients the comparison as candidate-older,
but on the claim's own example inputs the code decides by the opposite
orientation: BeforeVersion("v1.2.3", "v1.2.4") evaluates to false (the claim
says true) and BeforeVersion("v2.0.0", "v1.9.9") evaluates to true (the
claim says false). -/
theorem BeforeVersion_orientation_cex :
    BeforeVersion (String.toList "v1.2.3") (String.toList "v1.2.4") = some false ∧
    BeforeVersion (String.toList "v2.0.0") (String.toList "v1.9.9") = some true := by
  exact ⟨by decide, by decide⟩

/-- C1 (amended): for well-formed version strings, BeforeVersion(check, cur)
compares components major, then minor, then patch, and at the first
differing component returns true exactly when the CURRENT's (second
argument's) component is below the candidate's, i.e. it tests whether cur
is older than check; in particular BeforeVersion("v1.2.3", "v1.2.4") =
false and BeforeVersion("v2.0.0", "v1.9.9") = true. -/
theorem BeforeVersion_compares (c d : Char) (ct curt p1 p2 p3 q1 q2 q3 : List Char)
    (a1 a2 a3 b1 b2 b3 : Int)
    (hsa : goSplit '.' ct = [p1, p2, p3]) (hsb : goSplit '.' curt = [q1, q2, q3])
    (h1 : atoi p1 = some a1) (h2 : atoi p2 = some a2) (h3 : atoi p3 = some a3)
    (k1 : atoi q1 = some b1) (k2 : atoi q2 = some b2) (k3 : atoi q3 = some b3) :
    BeforeVersion (c :: ct) (d :: curt) = some (specIsOlder a1 a2 a3 b1 b2 b3) ∧
    BeforeVersion (String.toList "v1.2.3") (String.toList "v1.2.4") = some false ∧
    BeforeVersion (String.toList "v2.0.0") (String.toList "v1.9.9") = some true := by
  refine ⟨?_, by decide, by decide⟩
  simp only [BeforeVersion, hsa, hsb, get?_zero, get?_one, get?_two]
  rw [bvStep_parsed p1 q1 a1 b1 _ h1 k1, bvStep_parsed p2 q2 a2 b2 _ h2 k2,
    bvStep_parsed p3 q3 a3 b3 _ h3 k3]
  rcases lt_trichotomy b1 a1 with hc1 | hc1 | hc1
  · simp [specIsOlder, hc1, hc1.ne]
  · subst hc1
    rcases lt_trichotomy b2 a2 with hc2 | hc2 | hc2
    · simp [specIsOlder, hc2, hc2.ne]
    · subst hc2
      rcases lt_trichotomy b3 a3 with hc3 | hc3 | hc3
      · simp [specIsOlder, hc3, hc3.ne]
      · subst hc3
        simp [specIsOlder]
      · simp [specIsOlder, hc3.ne', lt_asymm hc3, hc3]
    · simp [specIsOlder, hc2.ne', lt_asymm hc2, hc2]
  · simp [specIsOlder, hc1.ne', lt_asymm hc1, hc1]

/-- C1 (witness): the amended comparison theorem applied to the concrete
pair v1.2.3 versus v1.2.4. -/
theorem BeforeVersion_compares_witness :
    BeforeVersion ('v' :: String.toList "1.2.3") ('v' :: String.toList "1.2.4") =
      some (specIsOlder 1 2 3 1 2 4) ∧
    BeforeVersion (String.toList "v1.2.3") (String.toList "v1.2.4") = some false ∧
    BeforeVersion (String.toList "v2.0.0") (String.toList "v1.9.9") = some true :=
  BeforeVersion_compares 'v' 'v' (String.toList "1.2.3") (String.toList "1.2.4")
    (String.toList "1") (String.toList "2") (String.toList "3")
    (String.toList "1") (String.toList "2") (String.toList "4")
    1 2 3 1 2 4 (by decide) (by decide) (by decide) (by decide) (by decide)
    (by decide) (by decide) (by decide)

/-- C9: a well-formed version string is never considered older than itself:
BeforeVersion(v, v) terminates normally and returns false. -/
theorem BeforeVersion_irrefl (v : List Char) (h : wellFormedVersion v = true) :
    BeforeVersion v v = some false := by
  cases v with
  | nil => simp [wellFormedVersion] at h
  | cons c t =>
    rcases hs : goSplit '.' t with _ | ⟨p1, _ | ⟨p2, _ | ⟨p3, _ | ⟨p4, r⟩⟩⟩⟩ <;>
      simp only [wellFormedVersion, hs, Bool.and_eq_true, Bool.false_eq_true] at h
    obtain ⟨h1, h2, h3⟩ := h
    rw [Option.isSome_iff_exists] at h1 h2 h3
    obtain ⟨a1, ha1⟩ := h1
    obtain ⟨a2, ha2⟩ := h2
    obtain ⟨a3, ha3⟩ := h3
    simp only [BeforeVersion, hs, get?_zero, get?_one, get?_two]
    rw [bvStep_same p1 a1 _ ha1, bvStep_same p2 a2 _ ha2, bvStep_same p3 a3 _ ha3]

/-- C9 (witness): irreflexivity evaluated at the concrete version v1.2.3. -/
theorem BeforeVersion_irrefl_witness :
    BeforeVersion (String.toList "v1.2.3") (String.toList "v1.2.3") = some false :=
  BeforeVersion_irrefl (String.toList "v1.2.3") (by decide)

/-- C4 (counterexample): the claim fails twice on the code.  First, a
non-numeric component does not force a false result: on ("v1.2.3",
"v0.x.x") the first components already differ numerically and the call
returns true without ever parsing the malformed components.  Second,
malformed input is not always a defined comparison failure: on ("v1",
"v1") the first components compare equal and the loop then indexes
aparts[1] out of range, a runtime panic (modelled as none). -/
theorem BeforeVersion_malformed_cex :
    BeforeVersion (String.toList "v1.2.3") (String.toList "v0.x.x") = some true ∧
    BeforeVersion (String.toList "v1") (String.toList "v1") = none := by
  exact ⟨by decide, by decide⟩

theorem bvStep_total (ap bp : List Char) (k : Option Bool) (hk : ∃ b, k = some b) :
    ∃ b, bvStep (some ap) (some bp) k = some b := by
  rcases hap : atoi ap with _ | an
  · exact ⟨false, by simp [bvStep, hap]⟩
  · rcases hbp : atoi bp with _ | bn
    · exact ⟨false, by simp [bvStep, hap, hbp]⟩
    · by_cases hlt : bn < an
      · exact ⟨true, by simp [bvStep, hap, hbp, hlt]⟩
      · by_cases hgt : an < bn
        · exact ⟨false, by simp [bvStep, hap, hbp, hlt, hgt]⟩
        · obtain ⟨b, hb⟩ := hk
          exact ⟨b, by simp [bvStep, hap, hbp, hlt, hgt, hb]⟩

/-- C4 (amended): BeforeVersion terminates normally with a boolean whenever
both inputs are nonempty and both tails split into at least three
dot-separated components; under that shape, a non-numeric component
reached by the loop before any deciding numeric difference yields false —
stated below for every such reachable position: a parse failure at the
first candidate component, or at a later component when every earlier
component pair parsed to equal values, and likewise for the current's
component once the candidate's at the same index parsed (the statement
order of the source) — as on the specification's own example ("v1.2.x",
"v1.2.4").  Outside that shape the claim fails: an empty input on either
side is a runtime panic (proved below for every other argument), a tail
with fewer than three components can panic when the loop reaches the
missing index after equal numeric components (the counterexample's
("v1", "v1")), and a non-numeric component placed after a deciding
numeric difference does not force a false result (the counterexample's
("v1.2.3", "v0.x.x")). -/
theorem BeforeVersion_total_on_shaped (c d : Char) (ct curt p1 p2 p3 q1 q2 q3 : List Char)
    (ra rb : List (List Char))
    (ha : goSplit '.' ct = p1 :: p2 :: p3 :: ra)
    (hb : goSplit '.' curt = q1 :: q2 :: q3 :: rb) :
    (∃ b, BeforeVersion (c :: ct) (d :: curt) = some b) ∧
    (atoi p1 = none → BeforeVersion (c :: ct) (d :: curt) = some false) ∧
    (∀ a1 : Int, atoi p1 = some a1 → atoi q1 = none →
      BeforeVersion (c :: ct) (d :: curt) = some false) ∧
    (∀ a1 : Int, atoi p1 = some a1 → atoi q1 = some a1 → atoi p2 = none →
      BeforeVersion (c :: ct) (d :: curt) = some false) ∧
    (∀ a1 a2 : Int, atoi p1 = some a1 → atoi q1 = some a1 → atoi p2 = some a2 →
      atoi q2 = none → BeforeVersion (c :: ct) (d :: curt) = some false) ∧
    (∀ a1 a2 : Int, atoi p1 = some a1 → atoi q1 = some a1 → atoi p2 = some a2 →
      atoi q2 = some a2 → atoi p3 = none →
      BeforeVersion (c :: ct) (d :: curt) = some false) ∧
    (∀ a1 a2 a3 : Int, atoi p1 = some a1 → atoi q1 = some a1 → atoi p2 = some a2 →
      atoi q2 = some a2 → atoi p3 = some a3 → atoi q3 = none →
      BeforeVersion (c :: ct) (d :: curt) = some false) ∧
    (∀ cur2, BeforeVersion [] cur2 = none) ∧
    (∀ check2, BeforeVersion check2 [] = none) ∧
    BeforeVersion (String.toList "v1.2.x") (String.toList "v1.2.4") = some false := by
  have hred : BeforeVersion (c :: ct) (d :: curt) =
      bvStep (some p1) (some q1) (bvStep (some p2) (some q2)
        (bvStep (some p3) (some q3) (some false))) := by
    simp only [BeforeVersion, ha, hb, get?_zero, get?_one, get?_two]
  refine ⟨?_, ?_, ?_, ?_, ?_, ?_, ?_, ?_, ?_, by decide⟩
  · rw [hred]
    exact bvStep_total p1 q1 _ (bvStep_total p2 q2 _ (bvStep_total p3 q3 _ ⟨false, rfl⟩))
  · intro h1
    rw [hred]
    simp [bvStep, h1]
  · intro a1 h1 h2
    rw [hred]
    simp [bvStep, h1, h2]
  · intro a1 h1 h2 h3
    rw [hred]
    simp [bvStep, h1, h2, h3]
  · intro a1 a2 h1 h2 h3 h4
    rw [hred]
    simp [bvStep, h1, h2, h3, h4]
  · intro a1 a2 h1 h2 h3 h4 h5
    rw [hred]
    simp [bvStep, h1, h2, h3, h4, h5]
  · intro a1 a2 a3 h1 h2 h3 h4 h5 h6
    rw [hred]
    simp [bvStep, h1, h2, h3, h4, h5, h6]
  · intro cur2
    cases cur2 <;> rfl
  · intro check2
    cases check2 <;> rfl

/-- C4 (witness): totality on the shaped inputs v1.2.3 and v9.8.7, a
non-numeric first candidate component yielding false on vx.2.3, the
empty-input panics against a concrete other argument, and the
specification's degraded-behavior example. -/
theorem BeforeVersion_total_on_shaped_witness :
    (∃ b, BeforeVersion ('v' :: String.toList "1.2.3") ('v' :: String.toList "9.8.7") = some b) ∧
    BeforeVersion ('v' :: String.toList "x.2.3") ('v' :: String.toList "1.2.4") = some false ∧
    BeforeVersion [] (String.toList "v1") = none ∧
    BeforeVersion (String.toList "v1") [] = none ∧
    BeforeVersion (String.toList "v1.2.x") (String.toList "v1.2.4") = some false := by
  have h1 := BeforeVersion_total_on_shaped 'v' 'v'
    (String.toList "1.2.3") (String.toList "9.8.7")
    (String.toList "1") (String.toList "2") (String.toList "3")
    (String.toList "9") (String.toList "8") (String.toList "7") [] []
    (by decide) (by decide)
  have h2 := BeforeVersion_total_on_shaped 'v' 'v'
    (String.toList "x.2.3") (String.toList "1.2.4")
    (String.toList "x") (String.toList "2") (String.toList "3")
    (String.toList "1") (String.toList "2") (String.toList "4") [] []
    (by decide) (by decide)
  exact ⟨h1.1, h2.2.1 (by decide), h1.2.2.2.2.2.2.2.1 (String.toList "v1"),
    h1.2.2.2.2.2.2.2.2.1 (String.toList "v1"), h1.2.2.2.2.2.2.2.2.2⟩

/-- Outcome of a single Read call: bytes were produced, the end of the
stream was reached, or the underlying transport failed.  The list-backed
sources of this embedding never produce the failure constructor, which is
exactly the point of the truncation claims: hitting the ceiling is
reported as end-of-stream, never as an error. -/
inductive ReadResult
  | ok
  | eof
  | err (e : List Char)
deriving DecidableEq

/-- State of io.LimitedReader combined with the closer kept by
util.limitReadCloser: n is the remaining byte allowance (the N field) and
src the bytes the wrapped ReadCloser has still to deliver.  Closing the
wrapper closes the underlying source; Close is not modelled further since
no claim touches it. -/
structure LimitedReader where
  n : Int
  src : List Char
deriving DecidableEq

/-- The fetchSizeLimit constant: 512 MiB. -/
def fetchSizeLimit : Int := 1024 * 1024 * 512

/-- util.newLimitReadCloser: wraps a ReadCloser in io.LimitReader(rc, limit)
while retaining rc as the closer. -/
def newLimitReadCloser (rc : List Char) (limit : Int) : LimitedReader :=
  { n := limit, src := rc }

/-- One Read call on the wrapper, asking for at most cap bytes: with no
allowance left it reports end-of-stream immediately; otherwise the request
is clipped to the allowance and forwarded to the underlying source, which
delivers its next bytes or reports end-of-stream when exhausted, and the
allowance shrinks by the bytes delivered. -/
def LimitedReader.read (l : LimitedReader) (cap : Nat) :
    List Char × ReadResult × LimitedReader :=
  if l.n ≤ 0 then ([], .eof, l)
  else if l.src = [] then ([], .eof, l)
  else
    let cap' := min cap l.n.toNat
    let bs := l.src.take cap'
    (bs, .ok, { n := l.n - bs.length, src := l.src.drop cap' })

/-- A consumer that reads the wrapper to exhaustion in chunks of c + 1
bytes, returning every byte received and the terminal result. -/
def LimitedReader.drain (l : LimitedReader) (c : Nat) : List Char × ReadResult :=
  if h0 : l.n ≤ 0 then ([], .eof)
  else if hs : l.src = [] then ([], .eof)
  else
    let cap := min (c + 1) l.n.toNat
    let bs := l.src.take cap
    let rest := LimitedReader.drain { n := l.n - bs.length, src := l.src.drop cap } c
    (bs ++ rest.1, rest.2)
termination_by l.src.length
decreasing_by
  simp only [List.length_drop]
  have hpos : 0 < l.src.length := List.length_pos.mpr hs
  omega

theorem drain_take (c : Nat) : ∀ (n : Nat) (src : List Char), n ≤ src.length →
    LimitedReader.drain { n := (n : Int), src := src } c = (src.take n, .eof) := by
  intro n
  induction n using Nat.strong_induction_on with
  | _ n ih =>
    intro src hle
    rcases Nat.eq_zero_or_pos n with h0 | hpos
    · subst h0
      rw [LimitedReader.drain]
      simp
    · have hsrc : src ≠ [] := by
        intro he
        subst he
        simp at hle
        omega
      have hn0 : ¬ ((n : Int) ≤ 0) := by omega
      have htn : ((n : Int)).toNat = n := by omega
      rw [LimitedReader.drain, dif_neg hn0, dif_neg hsrc]
      simp only [htn]
      have hcap1 : 1 ≤ min (c + 1) n := le_min (by omega) hpos
      have hcaple : min (c + 1) n ≤ n := min_le_right _ _
      have hlen : (src.take (min (c + 1) n)).length = min (c + 1) n := by
        rw [List.length_take]
        omega
      have hcast : (n : Int) - ((src.take (min (c + 1) n)).length : Int) =
          ((n - min (c + 1) n : Nat) : Int) := by
        rw [hlen]
        omega
      have hrec := ih (n - min (c + 1) n) (by omega) (src.drop (min (c + 1) n))
        (by rw [List.length_drop]; omega)
      simp only [hcast, hrec]
      rw [← List.take_add]
      congr 2
      omega

/-- C5: a stream of N + K bytes (K > 0) wrapped with a byte ceiling of N
yields exactly N bytes to a consumer reading it to exhaustion, followed by
an end-of-stream signal and never an error; the ceiling constant used by
the fetch paths is 1024 * 1024 * 512 bytes (512 MiB). -/
theorem limitReader_truncates (N K c : Nat) (src : List Char)
    (hlen : src.length = N + K) (hK : 0 < K) :
    (newLimitReadCloser src (N : Int)).drain c = (src.take N, ReadResult.eof) ∧
    (src.take N).length = N ∧
    fetchSizeLimit = 1024 * 1024 * 512 := by
  refine ⟨?_, by rw [List.length_take]; omega, rfl⟩
  simpa [newLimitReadCloser] using drain_take c N src (by omega)

/-- C5 (witness): the three-byte source abc under a ceiling of two bytes
delivers exactly ab and then end-of-stream. -/
theorem limitReader_truncates_witness :
    (newLimitReadCloser ('a' :: 'b' :: 'c' :: []) ((2 : Nat) : Int)).drain 0 =
      (('a' :: 'b' :: 'c' :: []).take 2, ReadResult.eof) ∧
    (('a' :: 'b' :: 'c' :: []).take 2).length = 2 ∧
    fetchSizeLimit = 1024 * 1024 * 512 :=
  limitReader_truncates 2 1 0 ('a' :: 'b' :: 'c' :: []) (by decide) (by decide)

/-- Result of a Go function call in this embedding: a value, an error
returned to the caller (carrying the formatted message), or a runtime
panic. -/
inductive Outcome (α : Type)
  | ok (a : α)
  | error (msg : List Char)
  | panic
deriving DecidableEq

/-- The metadata (HEAD) response, reduced to the one header the code reads:
Header.Get("Content-Length"), the empty string when the header is absent. -/
structure HeadResp where
  contentLength : List Char
deriving DecidableEq

/-- A GET response: numeric status code, status line text, and the bytes
the body has still to deliver. -/
structure HttpResp where
  statusCode : Nat
  status : List Char
  body : List Char
deriving DecidableEq

/-- What the external world hands back to each call site inside httpGet:
the http.Head result, whether ioutil.TempFile succeeds, the http.NewRequest
result, the http.DefaultClient.Do result, and whether the io.Copy into the
temporary file fails midway. -/
structure HttpEnv where
  tmpFileOk : Bool
  headResult : Except (List Char) HeadResp
  newReqErr : Option (List Char)
  getResult : Except (List Char) HttpResp
  copyErr : Option (List Char)

/-- util.httpGet.  The source assigns the http.Head error to err and then
immediately overwrites err with the ioutil.TempFile error, so the
subsequent err check guards the temp file, not the HEAD call — and it sits
after the deferred os.Remove(out.Name()), whose argument is evaluated at
the defer statement, so a TempFile failure dereferences the nil file
handle (panic) before the check runs, and a HEAD failure survives to
headResponse.Header.Get, dereferencing the nil response (panic).  On the
surviving path the Content-Length header is parsed with strconv.Atoi, the
GET request is issued, and io.Copy drains the entire response body into
the temporary file (removed on return), so the response is handed back
with an exhausted body.  The progress goroutine and its completion signal
are presentation only and not modelled. -/
def httpGet (env : HttpEnv) (url : List Char) : Outcome HttpResp :=
  match env.tmpFileOk with
  | false => .panic
  | true =>
    match env.headResult with
    | .error _ => .panic
    | .ok h =>
      match atoi h.contentLength with
      | none => .error (String.toList "http.Head Content-Length error: " ++ h.contentLength)
      | some _ =>
        match env.newReqErr with
        | some e => .error (String.toList "http.NewRequest error: " ++ e)
        | none =>
          match env.getResult with
          | .error e => .error (String.toList "http.DefaultClient.Do error: " ++ e)
          | .ok resp =>
            match env.copyErr with
            | some e => .error (String.toList "Error writing temp file to disk: " ++ e)
            | none => .ok { resp with body := [] }

/-- util.httpFetch: on a status of at least 400 the remaining body is read
as error context and the call fails with status plus that text; otherwise
the body is wrapped under the fetch size limit and returned.  The url
argument only reaches httpGet. -/
def httpFetch (env : HttpEnv) (url : List Char) : Outcome LimitedReader :=
  match httpGet env url with
  | .panic => .panic
  | .error e => .error e
  | .ok resp =>
    if 400 ≤ resp.statusCode then
      .error (resp.status ++ ':' :: ' ' :: resp.body)
    else
      .ok (newLimitReadCloser resp.body fetchSizeLimit)

/-- Substring check on character lists: does pat occur contiguously in the
second argument? -/
def listContains (pat : List Char) : List Char → Bool
  | [] => pat.isEmpty
  | c :: rest => pat.isPrefixOf (c :: rest) || listContains pat rest

theorem isPrefixOf_self_append (p rest : List Char) :
    p.isPrefixOf (p ++ rest) = true := by
  induction p with
  | nil => cases rest <;> rfl
  | cons a as ih => simp [List.isPrefixOf, ih]

theorem listContains_self_append (p rest : List Char) :
    listContains p (p ++ rest) = true := by
  cases p with
  | nil => cases rest <;> simp [listContains, List.isPrefixOf, List.isEmpty]
  | cons a as =>
    show listContains (a :: as) (a :: (as ++ rest)) = true
    simp only [listContains, Bool.or_eq_true]
    exact Or.inl (isPrefixOf_self_append (a :: as) rest)

theorem httpGet_ok_body (env : HttpEnv) (url : List Char) (resp : HttpResp)
    (h : httpGet env url = .ok resp) : resp.body = [] := by
  obtain ⟨tmp, head, nre, get, cp⟩ := env
  cases tmp
  · simp [httpGet] at h
  · rcases head with e | hr
    · simp [httpGet] at h
    · rcases hcl : atoi hr.contentLength with _ | v
      · simp [httpGet, hcl] at h
      · rcases nre with _ | e2
        · rcases get with e3 | resp2
          · simp [httpGet, hcl] at h
          · rcases cp with _ | e4
            · simp [httpGet, hcl] at h
              rw [← h]
            · simp [httpGet, hcl] at h
        · simp [httpGet, hcl] at h

/-- C2: whenever httpFetch succeeds, the read-closer it returns yields zero
payload bytes: httpGet has already drained the whole response body into the
(deleted) temporary file before returning, so the wrapper holds an
exhausted source, a first read of any size reports end-of-stream with no
bytes, and reading to exhaustion delivers nothing. -/
theorem httpFetch_success_drained (env : HttpEnv) (url : List Char) (rc : LimitedReader)
    (h : httpFetch env url = .ok rc) :
    rc.src = [] ∧
    (∀ cap, rc.read cap = ([], ReadResult.eof, rc)) ∧
    (∀ c, rc.drain c = ([], ReadResult.eof)) := by
  unfold httpFetch at h
  rcases hg : httpGet env url with resp | e | _ <;> rw [hg] at h
  · have hb := httpGet_ok_body env url resp hg
    by_cases hst : 400 ≤ resp.statusCode
    · simp [hst] at h
    · simp only [if_neg hst] at h
      injection h with h2
      subst h2
      rw [hb]
      refine ⟨rfl, ?_, ?_⟩
      · intro cap
        show LimitedReader.read { n := fetchSizeLimit, src := [] } cap = _
        rw [LimitedReader.read]
        norm_num [fetchSizeLimit, newLimitReadCloser]
      · intro c
        show LimitedReader.drain { n := fetchSizeLimit, src := [] } c = _
        rw [LimitedReader.drain]
        norm_num [fetchSizeLimit]
  · simp at h
  · simp at h

/-- C2 (witness): a concrete successful fetch of a four-byte body returns
the empty wrapped stream, whose first read and full drain both report
end-of-stream with no bytes. -/
theorem httpFetch_success_drained_witness :
    ({ n := fetchSizeLimit, src := [] } : LimitedReader).src = [] ∧
    ({ n := fetchSizeLimit, src := [] } : LimitedReader).read 4096 =
      ([], ReadResult.eof, { n := fetchSizeLimit, src := [] }) ∧
    ({ n := fetchSizeLimit, src := [] } : LimitedReader).drain 0 = ([], ReadResult.eof) := by
  have h := httpFetch_success_drained
    { tmpFileOk := true
    , headResult := Except.ok { contentLength := String.toList "4" }
    , newReqErr := none
    , getResult := Except.ok
        { statusCode := 200, status := String.toList "200 OK", body := String.toList "data" }
    , copyErr := none }
    (String.toList "https://ipfs.io/x") { n := fetchSizeLimit, src := [] } (by rfl)
  exact ⟨h.1, h.2.1 4096, h.2.2 0⟩

/-- C3 (code evaluated at the failing input): when the metadata HEAD
request fails with a transport error such as connection refused and the
temporary file is created successfully, httpGet panics on a nil response
dereference instead of returning the wrapped error the err check was meant
to produce — the check reads the error variable after the TempFile call
has overwritten it. -/
theorem httpGet_head_failure_panics :
    httpGet
      { tmpFileOk := true
      , headResult := Except.error (String.toList "connection refused")
      , newReqErr := none
      , getResult := Except.error []
      , copyErr := none }
      (String.toList "https://ipfs.io/ipns/dist.ipfs.io") = Outcome.panic := rfl

/-- C8 (counterexample): a gateway response with status 404 and body text
gone produces the error message 404 Not Found followed by a colon and a
space only — the response body was already consumed into the deleted
temporary file by httpGet, so the message does not contain the body text,
contrary to the claim. -/
theorem httpFetch_error_body_cex :
    httpFetch
      { tmpFileOk := true
      , headResult := Except.ok { contentLength := String.toList "4" }
      , newReqErr := none
      , getResult := Except.ok
          { statusCode := 404, status := String.toList "404 Not Found"
          , body := String.toList "gone" }
      , copyErr := none }
      (String.toList "https://ipfs.io/x") =
      Outcome.error (String.toList "404 Not Found: ") ∧
    listContains (String.toList "gone") (String.toList "404 Not Found: ") = false := by
  exact ⟨by decide, by decide⟩

/-- C8 (amended): for every gateway response whose status code is at least
400, httpFetch returns no stream and an error whose message contains the
response status followed by the body text still readable at that point —
which is empty, because httpGet has already consumed the entire body, so
the message is exactly the status, a colon and a space. -/
theorem httpFetch_status_error (env : HttpEnv) (url : List Char) (resp : HttpResp)
    (hg : httpGet env url = .ok resp) (hs : 400 ≤ resp.statusCode) :
    httpFetch env url = .error (resp.status ++ ':' :: ' ' :: []) ∧
    listContains resp.status (resp.status ++ ':' :: ' ' :: []) = true := by
  have hb := httpGet_ok_body env url resp hg
  constructor
  · unfold httpFetch
    rw [hg]
    simp [hs, hb]
  · exact listContains_self_append resp.status (':' :: ' ' :: [])

/-- C8 (witness): the amended statement evaluated on a concrete 404
response. -/
theorem httpFetch_status_error_witness :
    httpFetch
      { tmpFileOk := true
      , headResult := Except.ok { contentLength := String.toList "0" }
      , newReqErr := none
      , getResult := Except.ok
          { statusCode := 404, status := String.toList "404 Not Found"
          , body := String.toList "missing" }
      , copyErr := none }
      (String.toList "https://ipfs.io/y") =
      Outcome.error (String.toList "404 Not Found" ++ ':' :: ' ' :: []) ∧
    listContains (String.toList "404 Not Found")
      (String.toList "404 Not Found" ++ ':' :: ' ' :: []) = true :=
  httpFetch_status_error
    { tmpFileOk := true
    , headResult := Except.ok { contentLength := String.toList "0" }
    , newReqErr := none
    , getResult := Except.ok
        { statusCode := 404, status := String.toList "404 Not Found"
        , body := String.toList "missing" }
    , copyErr := none }
    (String.toList "https://ipfs.io/y")
    { statusCode := 404, status := String.toList "404 Not Found", body := [] }
    (by rfl) (by decide)

/-- Error cases of util.ApiEndpoint: the api file could not be read, or its
contents did not split into exactly five slash-delimited fields. -/
inductive ApiErr
  | readErr
  | badFormat (val : List Char)
deriving DecidableEq

/-- util.ApiEndpoint, as a function of the api file's contents (none when
ioutil.ReadFile fails): the contents must split on the slash into exactly
five fields, and the endpoint returned is field 2, a colon, and field 4. -/
def ApiEndpoint (fileContents : Option (List Char)) : Except ApiErr (List Char) :=
  match fileContents with
  | none => .error .readErr
  | some val =>
    let parts := goSplit '/' val
    if h : parts.length = 5 then
      .ok (parts.get ⟨2, by omega⟩ ++ ':' :: parts.get ⟨4, by omega⟩)
    else
      .error (.badFormat val)

/-- The default remote gateway base URL. -/
def GlobalGatewayUrl : List Char := String.toList "https://ipfs.io"

/-- What the external world hands back to the call sites inside util.Fetch:
the contents of the api file under IpfsDir() (none when unreadable), the
answer of the daemon liveness check sh.IsUp(), and the result of the
daemon stream sh.Cat(ipfspath), plus the HTTP world used on the gateway
path. -/
structure FetchEnv where
  apiFileContents : Option (List Char)
  isUp : Bool
  catResult : Except (List Char) (List Char)
  http : HttpEnv

/-- The possible shapes of a util.Fetch result, keeping the transport that
produced it visible: a stream from the local daemon, an error from the
local daemon returned as-is, or whatever the gateway path produced.  Only
the gateway constructor involves an HTTP request to the gateway. -/
inductive FetchOutcome
  | localOk (rc : LimitedReader)
  | localErr (e : List Char)
  | gateway (r : Outcome LimitedReader)
deriving DecidableEq

/-- util.Fetch: resolve the daemon endpoint from the api file; when that
succeeds and the liveness check answers, stream the path from the daemon —
returning the daemon's error unchanged on failure and the stream wrapped
under the fetch size limit on success.  On any discovery or liveness
failure, fall back to fetching from the HTTP gateway, prefixing the global
gateway URL to the path. -/
def Fetch (env : FetchEnv) (ipfspath : List Char) : FetchOutcome :=
  match ApiEndpoint env.apiFileContents with
  | .ok _ =>
    if env.isUp then
      match env.catResult with
      | .error e => .localErr e
      | .ok rc => .localOk (newLimitReadCloser rc fetchSizeLimit)
    else
      .gateway (httpFetch env.http (GlobalGatewayUrl ++ ipfspath))
  | .error _ =>
    .gateway (httpFetch env.http (GlobalGatewayUrl ++ ipfspath))

/-- C6: whenever daemon discovery fails (api file unreadable, or contents
that do not split into exactly five slash-delimited fields) or the
liveness check answers no, Fetch falls back to the HTTP gateway, and the
result is exactly the gateway fetch result — the discovery or probe error
never reaches the caller. -/
theorem Fetch_fallback_gateway (env : FetchEnv) (path : List Char)
    (h : env.apiFileContents = none ∨
         (∃ val, env.apiFileContents = some val ∧ (goSplit '/' val).length ≠ 5) ∨
         env.isUp = false) :
    Fetch env path = .gateway (httpFetch env.http (GlobalGatewayUrl ++ path)) := by
  rcases h with h | ⟨val, hv, hlen⟩ | h
  · simp [Fetch, ApiEndpoint, h]
  · simp [Fetch, ApiEndpoint, hv, hlen]
  · rcases he : ApiEndpoint env.apiFileContents with e | ep
    · simp [Fetch, he]
    · simp [Fetch, he, h]

/-- C6 (witness): fallback evaluated with a missing api file. -/
theorem Fetch_fallback_gateway_witness :
    Fetch
      { apiFileContents := none
      , isUp := false
      , catResult := Except.error []
      , http :=
        { tmpFileOk := true
        , headResult := Except.error (String.toList "connection refused")
        , newReqErr := none
        , getResult := Except.error []
        , copyErr := none } }
      (String.toList "/ipns/dist.ipfs.io") =
      FetchOutcome.gateway (httpFetch
        { tmpFileOk := true
        , headResult := Except.error (String.toList "connection refused")
        , newReqErr := none
        , getResult := Except.error []
        , copyErr := none }
        (GlobalGatewayUrl ++ String.toList "/ipns/dist.ipfs.io")) :=
  Fetch_fallback_gateway _ _ (Or.inl rfl)

/-- C7: when the daemon endpoint resolves and the liveness check answers
yes, Fetch never produces a gateway outcome — on daemon streaming success
it returns the wrapped daemon stream, on daemon streaming failure it
returns that error as-is with no gateway fallback, and the result does not
depend on the HTTP world at all. -/
theorem Fetch_local_no_gateway (env : FetchEnv) (path ep : List Char)
    (hep : ApiEndpoint env.apiFileContents = Except.ok ep)
    (hup : env.isUp = true) :
    (∀ r, Fetch env path ≠ .gateway r) ∧
    (∀ rc, env.catResult = Except.ok rc →
      Fetch env path = .localOk (newLimitReadCloser rc fetchSizeLimit)) ∧
    (∀ e, env.catResult = Except.error e → Fetch env path = .localErr e) ∧
    (∀ h2 : HttpEnv, Fetch { env with http := h2 } path = Fetch env path) := by
  have hep2 : ∀ h2 : HttpEnv,
      ApiEndpoint ({ env with http := h2 } : FetchEnv).apiFileContents = Except.ok ep := by
    intro h2
    exact hep
  refine ⟨?_, ?_, ?_, ?_⟩
  · intro r
    rcases hc : env.catResult with e | rc <;> simp [Fetch, hep, hup, hc]
  · intro rc hc
    simp [Fetch, hep, hup, hc]
  · intro e hc
    simp [Fetch, hep, hup, hc]
  · intro h2
    rcases hc : env.catResult with e | rc <;>
      simp [Fetch, hep, hep2 h2, hup, hc]

/-- C7 (witness): a reachable daemon with a successful stream yields the
wrapped daemon stream, not a gateway outcome, for any HTTP world. -/
theorem Fetch_local_no_gateway_witness :
    Fetch
      { apiFileContents := some (String.toList "/ip4/127.0.0.1/tcp/5001")
      , isUp := true
      , catResult := Except.ok (String.toList "data")
      , http :=
        { tmpFileOk := true
        , headResult := Except.error []
        , newReqErr := none
        , getResult := Except.error []
        , copyErr := none } }
      (String.toList "/ipns/dist.ipfs.io") ≠ FetchOutcome.gateway Outcome.panic ∧
    Fetch
      { apiFileContents := some (String.toList "/ip4/127.0.0.1/tcp/5001")
      , isUp := true
      , catResult := Except.ok (String.toList "data")
      , http :=
        { tmpFileOk := true
        , headResult := Except.error []
        , newReqErr := none
        , getResult := Except.error []
        , copyErr := none } }
      (String.toList "/ipns/dist.ipfs.io") =
      FetchOutcome.localOk (newLimitReadCloser (String.toList "data") fetchSizeLimit) := by
  have h := Fetch_local_no_gateway
    { apiFileContents := some (String.toList "/ip4/127.0.0.1/tcp/5001")
    , isUp := true
    , catResult := Except.ok (String.toList "data")
    , http :=
      { tmpFileOk := true
      , headResult := Except.error []
      , newReqErr := none
      , getResult := Except.error []
      , copyErr := none } }
    (String.toList "/ipns/dist.ipfs.io")
    (String.toList "127.0.0.1" ++ ':' :: String.toList "5001") (by rfl) (by rfl)
  exact ⟨h.1 Outcome.panic, h.2.1 (String.toList "data") rfl⟩

/-- util.RunCmd, as a function of the spawned command's combined output and
error status: a nonzero exit is surfaced as an error embedding both the
underlying error text and the captured output; on success the last output
byte is inspected — an out-of-range access (runtime panic) when the output
is empty — and a trailing newline is trimmed from the returned string. -/
def RunCmd (cmdErr : Option (List Char)) (out : List Char) : Outcome (List Char) :=
  match cmdErr with
  | some e => .error (e ++ ':' :: ' ' :: out)
  | none =>
    match out.getLast? with
    | none => .panic
    | some c => if c = '\n' then .ok out.dropLast else .ok out

/-- C10: when the spawned command succeeds with empty combined output, the
trailing-newline check indexes the empty byte slice out of range and
RunCmd does not return a value (a runtime panic in the embedding); a value
— the output with one trailing newline trimmed — is returned exactly when
the successful output is non-empty. -/
theorem RunCmd_empty_output (out : List Char) :
    RunCmd none [] = Outcome.panic ∧
    (out ≠ [] →
      RunCmd none out =
        .ok (if out.getLast? = some '\n' then out.dropLast else out)) := by
  refine ⟨rfl, ?_⟩
  intro hne
  cases hout : out.getLast? with
  | none =>
    rw [List.getLast?_eq_none_iff] at hout
    exact absurd hout hne
  | some c =>
    by_cases hc : c = '\n'
    · subst hc
      simp [RunCmd, hout]
    · simp [RunCmd, hout, hc]

/-- C10 (witness): the empty-output panic together with the trimming of a
concrete newline-terminated output. -/
theorem RunCmd_empty_output_witness :
    RunCmd none [] = Outcome.panic ∧
    RunCmd none ('o' :: 'k' :: '\n' :: []) =
      .ok (if ('o' :: 'k' :: '\n' :: []).getLast? = some '\n'
        then ('o' :: 'k' :: '\n' :: []).dropLast else ('o' :: 'k' :: '\n' :: [])) :=
  ⟨(RunCmd_empty_output []).1,
    (RunCmd_empty_output ('o' :: 'k' :: '\n' :: [])).2 (by decide)⟩

end Util
